import Mathlib

/-!
Verification of the Clarity CPA analysis engine (src/main.py).

The Python source is shallowly embedded: strings are lists of characters;
the score arithmetic of the source is carried out on exact rationals (its
additions and clamps on small decimals are exact in binary64, and the few
divisions it performs stay within the clamp bounds under either
semantics); the float() values and float arithmetic of the calculation
checker, where rounding is observable in the output, are modelled as IEEE
binary64 doubles with integer mantissa and exponent (correct rounding to
53 bits, ties to even, gradual underflow, overflow to infinity, NaN
propagation); and the fixed regular-expression rule tables of the source
are embedded as token lists interpreted by a small backtracking matcher
whose existence semantics coincides with re.search / re.findall on the
patterns actually used by the source.
-/

namespace Clarity

/-- Python max on two rationals, written as a kernel-computable if. -/
def pyMax (a b : ℚ) : ℚ := if a ≤ b then b else a

/-- Python min on two rationals, written as a kernel-computable if. -/
def pyMin (a b : ℚ) : ℚ := if a ≤ b then a else b

/-- Python abs on a rational, written as a kernel-computable if. -/
def pyAbs (q : ℚ) : ℚ := if q < 0 then -q else q

/-- Python str.lower restricted to ASCII, which covers every character the
fixed rule tables can distinguish. -/
def pyLowerChar (c : Char) : Char :=
  if 'A' ≤ c ∧ c ≤ 'Z' then Char.ofNat (c.toNat + 32) else c

/-- Lowercase a whole character list (model of content.lower()). -/
def pyLower (s : List Char) : List Char := s.map pyLowerChar

/-- Python str whitespace relevant to \s and str.split / str.strip. -/
def isPySpace (c : Char) : Bool :=
  c = ' ' || c = '\t' || c = '\n' || c = '\r' || c = '\x0b' || c = '\x0c'

/-- ASCII decimal digit test (Python \d on the inputs in scope). -/
def isDigitCh (c : Char) : Bool := '0' ≤ c && c ≤ '9'

/-- Python regex word character [a-zA-Z0-9_] (ASCII model), used for \b. -/
def isWordCh (c : Char) : Bool :=
  isDigitCh c || ('a' ≤ c && c ≤ 'z') || ('A' ≤ c && c ≤ 'Z') || c = '_'

/-- Bool substring test: does w occur contiguously in s (Python `in`). -/
def substrB (w : List Char) : List Char → Bool
  | [] => w.isPrefixOf ([] : List Char)
  | c :: s => w.isPrefixOf (c :: s) || substrB w s

/-- Model of `w in content.lower()` for a lowercase needle w. -/
def containsWord (w : String) (content : List Char) : Bool :=
  substrB w.data (pyLower content)

/-- Python str.split(sep) for a one-character separator: keeps empty pieces,
always returns at least one piece. -/
def splitOnCh (sep : Char) : List Char → List (List Char)
  | [] => [[]]
  | c :: rest =>
    if c = sep then [] :: splitOnCh sep rest
    else
      match splitOnCh sep rest with
      | [] => [[c]]
      | l :: ls => (c :: l) :: ls

/-- Python str.strip(): drop leading and trailing whitespace. -/
def pyStrip (s : List Char) : List Char :=
  ((s.dropWhile isPySpace).reverse.dropWhile isPySpace).reverse

/-- Number of words of Python str.split() with no argument (maximal runs of
non-whitespace characters); tail-worker tracks whether we are inside a run. -/
def wordCountAux : Bool → List Char → Nat
  | _, [] => 0
  | inw, c :: rest =>
    if isPySpace c then wordCountAux false rest
    else (if inw then 0 else 1) + wordCountAux true rest

/-- len(s.split()) in Python. -/
def wordCount (s : List Char) : Nat := wordCountAux false s

/-- Character classes appearing in the regexes of the source. -/
inductive CCls where
  | digit
  | space
  | anyNoNl
  | digitComma
deriving DecidableEq

/-- Membership in a character class; anyNoNl is `.` without DOTALL. -/
def inCls : CCls → Char → Bool
  | .digit, c => isDigitCh c
  | .space, c => isPySpace c
  | .anyNoNl, c => c ≠ '\n'
  | .digitComma, c => isDigitCh c || c = ','

/-- Regex tokens sufficient for the fixed patterns of the source: literal
characters, single-class characters, plus/star repetition and \b. -/
inductive RTok where
  | lit (c : Char)
  | one (k : CCls)
  | plus (k : CCls)
  | star (k : CCls)
  | wb
deriving DecidableEq

/-- Nondeterministic match of a token list against a prefix of the input;
`ci` selects re.IGNORECASE (patterns are written lowercase), `prev` is the
character before the current position (for \b).  Returns true iff some way
of choosing repetition lengths matches — which is exactly the truthiness of
a Python re.search anchored at this position.  The recursion is structural
on a fuel argument: every step strictly decreases tokens-plus-input, so
starting the fuel at that sum (as every caller below does) the
out-of-fuel arm is unreachable. -/
def matchAt (ci : Bool) : Nat → List RTok → List Char → Option Char → Bool
  | _, [], _, _ => true
  | n + 1, .wb :: ts, cs, prev =>
    (decide ((match prev with | some c => isWordCh c | none => false) ≠
      (match cs with | c :: _ => isWordCh c | _ => false))) && matchAt ci n ts cs prev
  | n + 1, .lit c :: ts, d :: cs, _ =>
    ((if ci then pyLowerChar d else d) = c : Bool) && matchAt ci n ts cs (some d)
  | n + 1, .one k :: ts, d :: cs, _ => inCls k d && matchAt ci n ts cs (some d)
  | n + 1, .plus k :: ts, d :: cs, _ =>
    inCls k d &&
      (matchAt ci n ts cs (some d) || matchAt ci n (.star k :: ts) cs (some d))
  | n + 1, .star k :: ts, cs, prev =>
    matchAt ci n ts cs prev ||
      (match cs with
       | d :: cs' => inCls k d && matchAt ci n (.star k :: ts) cs' (some d)
       | [] => false)
  | _ + 1, _ :: _, [], _ => false
  | 0, _ :: _, _, _ => false

/-- Worker for reSearch: try to match at every position. -/
def searchAux (ci : Bool) (p : List RTok) : List Char → Option Char → Bool
  | cs, prev =>
    matchAt ci (p.length + cs.length) p cs prev ||
      (match cs with
       | [] => false
       | c :: cs' => searchAux ci p cs' (some c))

/-- Truthiness of Python re.search(p, s) (with the IGNORECASE flag iff ci). -/
def reSearch (ci : Bool) (p : List RTok) (s : List Char) : Bool :=
  searchAux ci p s none

/-- Literal tokens of a plain word. -/
def lits (w : String) : List RTok := w.data.map RTok.lit

/-- Tokens of a whole-word pattern \bw\b. -/
def wordPat (w : String) : List RTok := RTok.wb :: lits w ++ [RTok.wb]

/-- Maximal run of characters satisfying p, failing on an empty run
(a greedy one-or-more repetition whose follow set is disjoint, so Python
never needs to backtrack into it on the calc pattern). -/
def takeRun1 (p : Char → Bool) (cs : List Char) : Option (List Char × List Char) :=
  let t := cs.takeWhile p
  if t.isEmpty then none else some (t, cs.drop t.length)

/-- All ways the greedy group (?:,\d\x7b3\x7d)* can split the input, longest
first — the order the Python backtracking explores. -/
def commaGroupAlts : List Char → List (List Char × List Char)
  | c1 :: c2 :: c3 :: c4 :: rest =>
    if c1 = ',' && isDigitCh c2 && isDigitCh c3 && isDigitCh c4 then
      ((commaGroupAlts rest).map fun pr => (c1 :: c2 :: c3 :: c4 :: pr.1, pr.2)) ++
        [([], c1 :: c2 :: c3 :: c4 :: rest)]
    else [([], c1 :: c2 :: c3 :: c4 :: rest)]
  | cs => [([], cs)]

/-- The optional fractional part (?:\.\d+)?, longest alternative first. -/
def decimalAlts (cs : List Char) : List (List Char × List Char) :=
  match cs with
  | '.' :: rest =>
    match takeRun1 isDigitCh rest with
    | some (ds, rest') => [('.' :: ds, rest'), ([], cs)]
    | none => [([], cs)]
  | _ => [([], cs)]

/-- Capture group \d+(?:,\d\x7b3\x7d)*(?:\.\d+)?: every backtracking
alternative paired with the remaining input, in the Python exploration order. -/
def group1Alts (cs : List Char) : List (List Char × List Char) :=
  match takeRun1 isDigitCh cs with
  | none => []
  | some (ds, rest) =>
    (commaGroupAlts rest).flatMap fun cg =>
      (decimalAlts cg.2).map fun dc => (ds ++ cg.1 ++ dc.1, dc.2)

/-- Capture group \d+(?:\.\d+)? (the middle factor). -/
def group2Alts (cs : List Char) : List (List Char × List Char) :=
  match takeRun1 isDigitCh cs with
  | none => []
  | some (ds, rest) => (decimalAlts rest).map fun dc => (ds ++ dc.1, dc.2)

/-- First alternative on which the continuation succeeds. -/
def firstSome {α β : Type} (f : α → Option β) : List α → Option β
  | [] => none
  | a :: as =>
    match f a with
    | some b => some b
    | none => firstSome f as

/-- The three captured number strings of one arithmetic-expression match. -/
structure CalcMatch where
  g1 : List Char
  g2 : List Char
  g3 : List Char
deriving DecidableEq

/-- Drop single leading whitespace run (greedy \s* whose follow set never
contains whitespace in the calc pattern, so this is exact). -/
def skipSpaces (cs : List Char) : List Char := cs.dropWhile isPySpace

/-- Drop an optional dollar sign \$? whose continuation requires a digit,
so taking it when present is the only way to succeed. -/
def skipDollar : List Char → List Char
  | '$' :: rest => rest
  | cs => cs

/-- Attempt to match the calculation regex of the source
\$?(\d+(?:,\d\x7b3\x7d)*(?:\.\d+)?)\s*[x×*]\s*(\d+(?:\.\d+)?)\s*=\s*\$?(\d+(?:,\d\x7b3\x7d)*(?:\.\d+)?)
anchored at the start of cs, returning the captures and the rest. -/
def calcMatchAt (cs : List Char) : Option (CalcMatch × List Char) :=
  firstSome
    (fun a1 =>
      match skipSpaces a1.2 with
      | op :: r3 =>
        if op = 'x' || op = '×' || op = '*' then
          firstSome
            (fun a2 =>
              match skipSpaces a2.2 with
              | '=' :: r7 =>
                firstSome
                  (fun a3 => some (⟨a1.1, a2.1, a3.1⟩, a3.2))
                  (group1Alts (skipDollar (skipSpaces r7)))
              | _ => none)
            (group2Alts (skipSpaces r3))
        else none
      | [] => none)
    (group1Alts (skipDollar cs))

/-- Fuelled worker for re.findall scanning: on a failed anchor advance one
character, on success continue after the match.  Every successful match
consumes at least one character, so fuel = input length suffices. -/
def calcFindAllAux : Nat → List Char → List CalcMatch
  | 0, _ => []
  | _ + 1, [] => []
  | n + 1, c :: rest =>
    match calcMatchAt (c :: rest) with
    | some (m, rest') => m :: calcFindAllAux n rest'
    | none => calcFindAllAux n rest

/-- re.findall of the calculation regex over one line. -/
def calcFindAll (cs : List Char) : List CalcMatch := calcFindAllAux cs.length cs

/-- Numeric value of digit characters. -/
def digitsToNat (ds : List Char) : Nat :=
  ds.foldl (fun a c => a * 10 + (c.toNat - 48)) 0

/-- The exact decimal value of a captured number string as a rational, the
mathematical reading of the literal (commas stripped, optional fraction).
This is NOT the value the program computes with: the source converts the
literal with float(), which rounds it to an IEEE binary64 double — see
parseF below. -/
def parseQ (cs : List Char) : ℚ :=
  let cs' := cs.filter fun c => c ≠ ','
  let ip := cs'.takeWhile fun c => c ≠ '.'
  let fp := (cs'.dropWhile fun c => c ≠ '.').drop 1
  (digitsToNat ip : ℚ) + (digitsToNat fp : ℚ) / ((10 : ℚ) ^ fp.length)

/-- Numerator and denominator of the exact decimal value of a captured
number string, kept in integer form so the binary64 rounding below can be
computed with pure natural-number arithmetic. -/
def parseDec (cs : List Char) : Nat × Nat :=
  let cs' := cs.filter fun c => c ≠ ','
  let ip := cs'.takeWhile fun c => c ≠ '.'
  let fp := (cs'.dropWhile fun c => c ≠ '.').drop 1
  (digitsToNat ip * 10 ^ fp.length + digitsToNat fp, 10 ^ fp.length)

/-- Round a/b (b positive) to the nearest natural number, ties to even —
the IEEE rounding mode and the rounding of the Python format spec. -/
def rheNat (a b : Nat) : Nat :=
  let q0 := a / b
  let r := a % b
  if 2 * r < b then q0
  else if b < 2 * r then q0 + 1
  else if q0 % 2 = 0 then q0 else q0 + 1

/-- Fuelled bit-length worker. -/
def nbitsF : Nat → Nat → Nat
  | 0, _ => 0
  | f + 1, n => if n = 0 then 0 else nbitsF f (n / 2) + 1

/-- Number of binary digits of n (0 for 0); fuel n covers the recursion
depth, which is the bit count itself. -/
def nbits (n : Nat) : Nat := nbitsF n n

/-- Decide 2^k ≤ a/b for positive naturals a b and any integer k. -/
def pow2le (k : Int) (a b : Nat) : Bool :=
  if 0 ≤ k then 2 ^ k.toNat * b ≤ a else b ≤ 2 ^ (-k).toNat * a

/-- The binary exponent e with 2^e ≤ a/b < 2^(e+1), for positive a b. -/
def ratE (a b : Nat) : Int :=
  let e0 : Int := (nbits a : Int) - (nbits b : Int)
  if pow2le e0 a b then e0 else e0 - 1

/-- An IEEE binary64 double: a finite value m·2^e with integer mantissa and
exponent, or an infinity, or a NaN.  Finite values built by the rounding
functions below carry |m| < 2^53, the double precision. -/
inductive PyFloat where
  | fin (m : Int) (e : Int)
  | inf
  | ninf
  | nan
deriving DecidableEq

/-- IEEE negation. -/
def pfNeg : PyFloat → PyFloat
  | .fin m e => .fin (-m) e
  | .inf => .ninf
  | .ninf => .inf
  | .nan => .nan

/-- Round the positive rational a/b to the nearest binary64 double, ties to
even: mantissa of 53 bits for normal values, fixed quantum 2^(-1074) below
the normal range (gradual underflow), overflow to infinity past the
largest finite double. -/
def flOfRatPos (a b : Nat) : PyFloat :=
  let e := ratE a b
  if e < -1022 then .fin (rheNat (a * 2 ^ 1074) b : Int) (-1074)
  else
    let k : Int := 52 - e
    let m := if 0 ≤ k then rheNat (a * 2 ^ k.toNat) b else rheNat a (b * 2 ^ (-k).toNat)
    if m = 2 ^ 53 then (if 1023 < e + 1 then .inf else .fin (2 ^ 52 : Nat) (e + 1 - 52))
    else if 1023 < e then .inf
    else .fin (m : Int) (e - 52)

/-- Round the rational num/den to the nearest binary64 double. -/
def flOfRat (num : Int) (den : Nat) : PyFloat :=
  if num = 0 then .fin 0 0
  else if num < 0 then pfNeg (flOfRatPos num.natAbs den)
  else flOfRatPos num.natAbs den

/-- Round the exact value m·2^e to the nearest binary64 double (the result
of an IEEE operation is the correctly rounded exact result). -/
def flOfScaled (m : Int) (e : Int) : PyFloat :=
  if 0 ≤ e then flOfRat (m * 2 ^ e.toNat) 1 else flOfRat m (2 ^ (-e).toNat)

/-- Python float(s.replace(",", "")) on a captured number string: the
decimal literal correctly rounded to a binary64 double, with overflow to
inf exactly as the CPython string conversion behaves. -/
def parseF (cs : List Char) : PyFloat :=
  let nd := parseDec cs
  if nd.1 = 0 then .fin 0 0 else flOfRatPos nd.1 nd.2

/-- IEEE binary64 multiplication (the sign of a zero is irrelevant to every
use in the source, so zeros are unsigned here). -/
def pfMul : PyFloat → PyFloat → PyFloat
  | .fin m₁ e₁, .fin m₂ e₂ => flOfScaled (m₁ * m₂) (e₁ + e₂)
  | .fin m _, .inf => if m = 0 then .nan else if m < 0 then .ninf else .inf
  | .fin m _, .ninf => if m = 0 then .nan else if m < 0 then .inf else .ninf
  | .inf, .fin m _ => if m = 0 then .nan else if m < 0 then .ninf else .inf
  | .ninf, .fin m _ => if m = 0 then .nan else if m < 0 then .inf else .ninf
  | .inf, .inf => .inf
  | .inf, .ninf => .ninf
  | .ninf, .inf => .ninf
  | .ninf, .ninf => .inf
  | .nan, _ => .nan
  | _, .nan => .nan

/-- IEEE binary64 subtraction. -/
def pfSub : PyFloat → PyFloat → PyFloat
  | .fin m₁ e₁, .fin m₂ e₂ =>
    if 0 ≤ e₁ - e₂ then flOfScaled (m₁ * 2 ^ (e₁ - e₂).toNat - m₂) e₂
    else flOfScaled (m₁ - m₂ * 2 ^ (e₂ - e₁).toNat) e₁
  | .fin _ _, .inf => .ninf
  | .fin _ _, .ninf => .inf
  | .inf, .fin _ _ => .inf
  | .ninf, .fin _ _ => .ninf
  | .inf, .inf => .nan
  | .ninf, .ninf => .nan
  | .inf, .ninf => .inf
  | .ninf, .inf => .ninf
  | .nan, _ => .nan
  | _, .nan => .nan

/-- IEEE absolute value. -/
def pfAbs : PyFloat → PyFloat
  | .fin m e => .fin (m.natAbs : Int) e
  | .inf => .inf
  | .ninf => .inf
  | .nan => .nan

/-- IEEE strict greater-than: false on any NaN, exact value comparison on
finite doubles. -/
def pfGt : PyFloat → PyFloat → Bool
  | .nan, _ => false
  | _, .nan => false
  | .inf, .inf => false
  | .inf, _ => true
  | .ninf, _ => false
  | .fin _ _, .inf => false
  | .fin _ _, .ninf => true
  | .fin m₁ e₁, .fin m₂ e₂ =>
    if 0 ≤ e₁ - e₂ then m₂ < m₁ * 2 ^ (e₁ - e₂).toNat
    else m₂ * 2 ^ (e₂ - e₁).toNat < m₁

/-- The double value of the literal 0.01 that the source compares against
(main.py line 129). -/
def pf001 : PyFloat := flOfRatPos 1 100

/-- Insert thousands separators into a reversed digit list. -/
def insertCommasRev : List Char → List Char
  | d1 :: d2 :: d3 :: d4 :: rest => d1 :: d2 :: d3 :: ',' :: insertCommasRev (d4 :: rest)
  | ds => ds

/-- Thousands grouping of a digit list. -/
def groupThousands (ds : List Char) : List Char := (insertCommasRev ds.reverse).reverse

/-- Python format spec \x7bv:,.2f\x7d on a nonnegative finite double m·2^e:
the exact value times 100, rounded half-to-even to an integer, printed with
two decimals and thousands separators. -/
def formatFin2 (m : Nat) (e : Int) : String :=
  let n := if 0 ≤ e then m * 100 * 2 ^ e.toNat else rheNat (m * 100) (2 ^ (-e).toNat)
  let fr := n % 100
  String.mk (groupThousands (Nat.toDigits 10 (n / 100)) ++ ['.'] ++
    (if fr < 10 then ['0'] else []) ++ Nat.toDigits 10 fr)

/-- Python format spec \x7bv:,.2f\x7d on any double: finite values as
above, and the CPython renderings inf, -inf, nan otherwise. -/
def pfFormatComma2 : PyFloat → String
  | .fin m e => if m < 0 then "-" ++ formatFin2 m.natAbs e else formatFin2 m.natAbs e
  | .inf => "inf"
  | .ninf => "-inf"
  | .nan => "nan"

/-- The apostrophe character, used in rule-table strings. -/
def apos : Char := Char.ofNat 39

/-- A backslash character, used in display renderings of patterns. -/
def bsl : Char := '\\'

/-- One pattern rule: tokens, the display rendering the source produces by
stripping escape markers from the raw pattern string, and the suggestion. -/
structure PatRule where
  pat : List RTok
  disp : String
  suggestion : String
deriving DecidableEq

/-- The spelling_patterns table of the source, in insertion order. -/
def spellingPatterns : List PatRule :=
  [⟨wordPat "acheive", "acheive", "achieve"⟩,
   ⟨wordPat "beleive", "beleive", "believe"⟩,
   ⟨wordPat "aproach", "aproach", "approach"⟩,
   ⟨wordPat "experiance", "experiance", "experience"⟩,
   ⟨wordPat "accurate", "accurate", "accurate"⟩,
   ⟨wordPat "recieve", "recieve", "receive"⟩,
   ⟨wordPat "propsal", "propsal", "proposal"⟩]

/-- The grammar_patterns table of the source, in insertion order. -/
def grammarPatterns : List PatRule :=
  [⟨RTok.wb :: lits "your" ++ [RTok.plus .space] ++ lits "going" ++ [RTok.wb],
    "your going",
    String.mk ("you".data ++ [apos] ++ "re going".data)⟩,
   ⟨RTok.wb :: lits "they" ++ [RTok.lit apos] ++ lits "re" ++ [RTok.plus .space] ++
      lits "office" ++ [RTok.wb],
    String.mk ("they".data ++ [bsl, apos] ++ "re office".data),
    "their office"⟩,
   ⟨RTok.wb :: lits "you" ++ [RTok.lit apos] ++ lits "re" ++ [RTok.plus .space] ++
      lits "organization" ++ [RTok.wb],
    String.mk ("you".data ++ [bsl, apos] ++ "re organization".data),
    "your organization"⟩,
   ⟨RTok.wb :: lits "over" ++ [RTok.plus .space, RTok.plus .digit, RTok.lit '+',
      RTok.plus .space] ++ lits "years" ++ [RTok.wb],
    "over \\d+\\+ years",
    String.mk ("redundant ".data ++ [apos] ++ "over".data ++ [apos] ++ " and ".data ++
      [apos, '+', apos])⟩,
   ⟨wordPat "approximatley", "approximatley", "approximately"⟩,
   ⟨wordPat "dependng", "dependng", "depending"⟩]

/-- One spelling or grammar defect as emitted by the source. -/
structure DefectRecord where
  line : Nat
  text : String
  suggestion : String
  original : String
deriving DecidableEq

/-- One calculation defect as emitted by the source. -/
structure CalcRecord where
  line : Nat
  expression : String
  expected : String
  error : String
deriving DecidableEq

/-- The per-kind defect inventory returned by _detect_errors; the
consistency and logic kinds are reserved and stay empty. -/
structure ErrorInventory where
  spelling_errors : List DefectRecord
  grammar_errors : List DefectRecord
  consistency_errors : List DefectRecord
  calculation_errors : List CalcRecord
  logic_errors : List DefectRecord
deriving DecidableEq

/-- Spelling records of one line (1-based number n): one record per table
rule whose pattern matches the line, in table order. -/
def spellingErrorsOfLine (n : Nat) (l : List Char) : List DefectRecord :=
  spellingPatterns.filterMap fun r =>
    if reSearch true r.pat l then some ⟨n, r.disp, r.suggestion, String.mk (pyStrip l)⟩
    else none

/-- Grammar records of one line, in table order. -/
def grammarErrorsOfLine (n : Nat) (l : List Char) : List DefectRecord :=
  grammarPatterns.filterMap fun r =>
    if reSearch true r.pat l then some ⟨n, r.disp, r.suggestion, String.mk (pyStrip l)⟩
    else none

/-- The calculation record the source builds from one regex match, with
the expected product as the double the program computed. -/
def mkCalcRecord (n : Nat) (m : CalcMatch) (expected : PyFloat) : CalcRecord :=
  ⟨n,
   String.mk (m.g1 ++ [' ', '×', ' '] ++ m.g2 ++ [' ', '=', ' '] ++ m.g3),
   pfFormatComma2 expected,
   "Should be " ++ pfFormatComma2 expected ++ ", not " ++ String.mk m.g3⟩

/-- expected = num1 * num2 of the source, in binary64 arithmetic. -/
def calcExpected (m : CalcMatch) : PyFloat := pfMul (parseF m.g1) (parseF m.g2)

/-- The emission test abs(expected - result) > 0.01 of the source, in
binary64 arithmetic (0.01 itself is the nearest double). -/
def calcDeviates (m : CalcMatch) : Bool :=
  pfGt (pfAbs (pfSub (calcExpected m) (parseF m.g3))) pf001

/-- Calculation records of one line: for every match A×B=C of the scanning
regex, emit a record exactly when the double-precision product deviates
from the stated result by more than the double 0.01. -/
def calcErrorsOfLine (n : Nat) (l : List Char) : List CalcRecord :=
  (calcFindAll l).filterMap fun m =>
    if calcDeviates m then some (mkCalcRecord n m (calcExpected m)) else none

/-- Accumulate the three populated defect kinds over the numbered lines. -/
def detectAux : Nat → List (List Char) → List DefectRecord × List DefectRecord × List CalcRecord
  | _, [] => ([], [], [])
  | n, l :: ls =>
    let rest := detectAux (n + 1) ls
    (spellingErrorsOfLine n l ++ rest.1,
     grammarErrorsOfLine n l ++ rest.2.1,
     calcErrorsOfLine n l ++ rest.2.2)

/-- Model of _detect_errors: split the content into lines numbered from 1 and scan
each against the spelling, grammar and calculation rules. -/
def detect_errors (content : List Char) : ErrorInventory :=
  let r := detectAux 1 (splitOnCh '\n' content)
  ⟨r.1, r.2.1, [], r.2.2, []⟩

/-- Count of all defect records over the five kinds. -/
def totalErrors (e : ErrorInventory) : Nat :=
  e.spelling_errors.length + e.grammar_errors.length + e.consistency_errors.length +
    e.calculation_errors.length + e.logic_errors.length

/-- The 5-point length bonus for content longer than 500 characters. -/
def lengthBonus (content : List Char) : ℚ :=
  if 500 < content.length then 5 else 0

/-- The financial-analysis vocabulary of the 10-point bonus. -/
def dollarWordsList : List String := ["roi", "investment", "return"]

/-- The 10-point bonus for a dollar sign plus financial vocabulary. -/
def dollarBonus (content : List Char) : ℚ :=
  if content.contains '$' && dollarWordsList.any (fun w => containsWord w content) then 10
  else 0

/-- The pre-clamp quality score: 100 minus 5 per defect record plus the two
bonuses (per-kind deduction of len*5 summed over kinds equals 5*total). -/
def qualityRaw (content : List Char) (errors : ErrorInventory) : ℚ :=
  100 - 5 * (totalErrors errors : ℚ) + lengthBonus content + dollarBonus content

/-- Model of _calculate_quality_score: the raw score clamped to [0,100]. -/
def calculate_quality_score (content : List Char) (errors : ErrorInventory) : ℚ :=
  pyMax 0 (pyMin 100 (qualityRaw content errors))

/-- The overall_score the quality pipeline reports for a document. -/
def overallScoreOf (content : List Char) : ℚ :=
  calculate_quality_score content (detect_errors content)

/-- The keyword lists of _classify_document, in priority order. -/
def proposalKeywords : List String := ["proposal", "executive summary", "investment"]

/-- Second-priority classification keywords. -/
def reportKeywords : List String := ["report", "analysis", "findings"]

/-- Third-priority classification keywords. -/
def communicationKeywords : List String := ["email", "message", "correspondence"]

/-- Model of _classify_document: first matching keyword category wins. -/
def classify_document (content : List Char) : String :=
  if proposalKeywords.any (fun w => containsWord w content) then "business_proposal"
  else if reportKeywords.any (fun w => containsWord w content) then "business_report"
  else if communicationKeywords.any (fun w => containsWord w content) then
    "business_communication"
  else "general_business_document"

/-- Model of _score_grammar: 100 minus 10 per grammar record, floored at 0. -/
def score_grammar (content : List Char) : ℚ :=
  pyMax 0 (100 - 10 * ((detect_errors content).grammar_errors.length : ℚ))

/-- Mean word count of the period-separated fragments of the content (the
fragment list of str.split is never empty, so the zero guard of the source is
never taken). -/
def clarityAvg (content : List Char) : ℚ :=
  (((splitOnCh '.' content).map fun s => (wordCount s : ℚ)).sum) /
    ((splitOnCh '.' content).length : ℚ)

/-- Model of _score_clarity: the mean fragment word count scored by a step function. -/
def score_clarity (content : List Char) : ℚ :=
  if 15 ≤ clarityAvg content ∧ clarityAvg content ≤ 20 then 95
  else if 10 ≤ clarityAvg content ∧ clarityAvg content ≤ 25 then 85
  else 70

/-- Professional vocabulary of _score_professionalism. -/
def professionalWords : List String :=
  ["executive", "strategic", "comprehensive", "optimize", "implement"]

/-- Informal vocabulary of _score_professionalism. -/
def informalWords : List String := ["gonna", "wanna", "yeah", "ok", "awesome"]

/-- Model of _score_professionalism: base 85, capped professional bonus, uncapped
informal penalty, clamped to [0,100]. -/
def score_professionalism (content : List Char) : ℚ :=
  let fp := (professionalWords.filter fun w => containsWord w content).length
  let fi := (informalWords.filter fun w => containsWord w content).length
  pyMax 0 (pyMin 100 (85 + pyMin 15 (3 * (fp : ℚ)) - 10 * (fi : ℚ)))

/-- The six-item section checklist of _score_completeness. -/
def sectionWords : List String :=
  ["problem", "solution", "timeline", "investment", "roi", "conclusion"]

/-- Model of _score_completeness: fraction of checklist keywords present, times 100. -/
def score_completeness (content : List Char) : ℚ :=
  (((sectionWords.filter fun w => containsWord w content).length : ℚ) /
    (sectionWords.length : ℚ)) * 100

/-- Recommendation rules of _generate_recommendations, in source order. -/
def generate_recommendations (content : List Char) (errors : ErrorInventory) : List String :=
  (if 5 < totalErrors errors then ["Consider thorough proofreading before final submission"]
   else []) ++
  (if errors.calculation_errors ≠ [] then
     ["Verify all mathematical calculations and financial projections"]
   else []) ++
  (if errors.spelling_errors ≠ [] then
     ["Use spell-check tools to catch common spelling mistakes"]
   else []) ++
  (if errors.grammar_errors ≠ [] then
     ["Review grammar, especially possessive forms and contractions"]
   else []) ++
  (if content.length < 200 then ["Consider expanding with more detailed information"]
   else []) ++
  (if ¬ (["timeline", "deadline", "schedule"].any fun w => containsWord w content) then
     ["Include specific timelines and deadlines"]
   else [])

/-- Pattern \d+\s*day; days? matches somewhere iff its mandatory part day
does, so dropping the optional s preserves re.search truthiness. -/
def numDayPat : List RTok := [RTok.plus .digit, RTok.star .space] ++ lits "day"

/-- Pattern \d+\s*week (see numDayPat for the optional s). -/
def numWeekPat : List RTok := [RTok.plus .digit, RTok.star .space] ++ lits "week"

/-- Pattern \d+\s*month (see numDayPat for the optional s). -/
def numMonthPat : List RTok := [RTok.plus .digit, RTok.star .space] ++ lits "month"

/-- Pattern \$[\d,]+ (a dollar figure). -/
def dollarFigPat : List RTok := [RTok.lit '$', RTok.plus .digitComma]

/-- The seven boolean presence factors of _analyze_proposal_strength, in
source order. -/
def strengthFactors (content : List Char) : List Bool :=
  [["problem", "challenge", "issue", "pain"].any fun w => containsWord w content,
   ["solution", "approach", "strategy", "method"].any fun w => containsWord w content,
   reSearch true numDayPat content || reSearch true numWeekPat content ||
     reSearch true numMonthPat content || containsWord "timeline" content ||
     containsWord "schedule" content,
   reSearch true dollarFigPat content || containsWord "investment" content ||
     containsWord "cost" content || containsWord "price" content,
   ["roi", "return", "benefit", "value"].any fun w => containsWord w content,
   ["team", "experience", "expert", "professional"].any fun w => containsWord w content,
   ["urgent", "critical", "immediate", "asap"].any fun w => containsWord w content]

/-- Model of _analyze_proposal_strength: fraction of true factors times 100. -/
def analyze_proposal_strength (content : List Char) : ℚ :=
  (((strengthFactors content).countP (fun b => b) : ℚ) /
    ((strengthFactors content).length : ℚ)) * 100

/-- Value vocabulary of _score_value_proposition. -/
def valueIndicators : List String :=
  ["save", "reduce", "increase", "improve", "optimize", "roi", "benefit"]

/-- Number of vocabulary entries occurring in the lowercased content. -/
def vocabHits (ws : List String) (content : List Char) : Nat :=
  (ws.filter fun w => containsWord w content).length

/-- Model of _score_value_proposition: 15 per hit, clamped to [20,100]. -/
def score_value_proposition (content : List Char) : ℚ :=
  pyMin 100 (pyMax 20 (15 * (vocabHits valueIndicators content : ℚ)))

/-- Credibility vocabulary of _score_credibility. -/
def credibilityFactors : List String :=
  ["experience", "proven", "track record", "certified", "years", "expert"]

/-- Model of _score_credibility: 15 per hit, clamped to [30,100]. -/
def score_credibility (content : List Char) : ℚ :=
  pyMin 100 (pyMax 30 (15 * (vocabHits credibilityFactors content : ℚ)))

/-- Urgency vocabulary of _score_urgency. -/
def urgencyVocab : List String :=
  ["urgent", "critical", "immediate", "deadline", "asap", "emergency"]

/-- Model of _score_urgency: 20 per hit, capped at 100. -/
def score_urgency (content : List Char) : ℚ :=
  pyMin 100 (20 * (vocabHits urgencyVocab content : ℚ))

/-- Pattern \$[\d,]+.*\$[\d,]+: two dollar figures on one line. -/
def twoDollarPat : List RTok :=
  [RTok.lit '$', RTok.plus .digitComma, RTok.star .anyNoNl, RTok.lit '$',
   RTok.plus .digitComma]

/-- First alternative \d+%.*roi of the ROI-percentage pattern. -/
def roiPctPatA : List RTok :=
  [RTok.plus .digit, RTok.lit '%', RTok.star .anyNoNl] ++ lits "roi"

/-- Second alternative roi.*\d+% of the ROI-percentage pattern. -/
def roiPctPatB : List RTok :=
  lits "roi" ++ [RTok.star .anyNoNl, RTok.plus .digit, RTok.lit '%']

/-- Model of _score_roi_clarity: tiered score 95 / 75 / 60 / 30.  The two-dollar
search is case-sensitive in the source; the ROI-percentage search carries
re.IGNORECASE. -/
def score_roi_clarity (content : List Char) : ℚ :=
  if reSearch false twoDollarPat content then
    if reSearch true roiPctPatA content || reSearch true roiPctPatB content then 95
    else 75
  else if containsWord "roi" content then 60
  else 30

/-- Urgency trigger vocabulary of _analyze_client_psychology. -/
def psychUrgencyWords : List String :=
  ["critical", "urgent", "immediate", "crisis", "emergency"]

/-- Fear trigger vocabulary. -/
def fearWords : List String := ["risk", "loss", "failure", "decline", "threat"]

/-- Gain trigger vocabulary. -/
def gainWords : List String := ["growth", "increase", "improve", "benefit", "advantage"]

/-- The urgency hit-sum: 10 points per distinct vocabulary word present. -/
def urgencyTriggerScore (content : List Char) : Nat :=
  10 * vocabHits psychUrgencyWords content

/-- The fear hit-sum. -/
def fearTriggerScore (content : List Char) : Nat :=
  10 * vocabHits fearWords content

/-- The gain hit-sum. -/
def gainTriggerScore (content : List Char) : Nat :=
  10 * vocabHits gainWords content

/-- The record returned by _analyze_client_psychology. -/
structure PsychologyInsights where
  persuasion_score : Nat
  primary_motivators : List String
  psychological_triggers : List String
deriving DecidableEq

/-- Model of _analyze_client_psychology: persuasion score capped at 100, motivators
for each hit-sum strictly above 20, fixed trigger label sets. -/
def analyze_client_psychology (content : List Char) : PsychologyInsights :=
  let u := urgencyTriggerScore content
  let f := fearTriggerScore content
  let g := gainTriggerScore content
  let p := min 100 (u + f + g)
  ⟨p,
   (if 20 < u then ["urgency"] else []) ++
     (if 20 < f then ["loss_aversion"] else []) ++
     (if 20 < g then ["growth_opportunity"] else []),
   if 50 < p then ["authority", "scarcity", "social_proof"] else ["clarity", "trust"]⟩

/-- The record returned by _analyze_competitive_position. -/
structure CompetitivePositioning where
  differentiation_strength : String
  competitive_advantages : List String
  market_positioning : String
deriving DecidableEq

/-- Model of _analyze_competitive_position: fixed content except the
differentiation label. -/
def analyze_competitive_position (content : List Char) : CompetitivePositioning :=
  ⟨if containsWord "unique" content || containsWord "exclusive" content then "strong"
    else "moderate",
   ["Comprehensive 7-agent approach", "Proven track record",
    "Rapid implementation timeline"],
   "premium specialist"⟩

/-- Pattern \d+% (case-sensitivity irrelevant: digits and percent only). -/
def pctPat : List RTok := [RTok.plus .digit, RTok.lit '%']

/-- Model of _generate_strategic_recommendations, in source order. -/
def generate_strategic_recommendations (content : List Char) : List String :=
  (if ¬ containsWord "roi" content then
     ["Add specific ROI calculations and financial projections"]
   else []) ++
  (if ¬ reSearch false pctPat content then
     ["Include percentage-based metrics for credibility"]
   else []) ++
  (if ¬ containsWord "testimonial" content ∧ ¬ containsWord "reference" content then
     ["Add client testimonials or case study references"]
   else []) ++
  (if wordCount content < 300 then
     ["Expand content with more detailed implementation plan"]
   else []) ++
  ["Include risk mitigation strategies", "Add competitive differentiation section"]

/-- Model of _identify_optimization_opportunities, in source order; the day/week
duration search is case-sensitive in the source. -/
def identify_optimization_opportunities (content : List Char) : List String :=
  (if content.contains '$' && containsWord "roi" content then
     ["Highlight exceptional ROI as primary value proposition"]
   else []) ++
  (if reSearch false numDayPat content || reSearch false numWeekPat content then
     ["Emphasize rapid implementation timeline"]
   else []) ++
  (if containsWord "agent" content then ["Showcase innovative multi-agent approach"]
   else []) ++
  ["Create urgency with limited-time offer", "Add social proof with industry statistics"]

/-- The four quality sub-dimension scores. -/
structure QualityDimensions where
  grammar : ℚ
  clarity : ℚ
  professionalism : ℚ
  completeness : ℚ
deriving DecidableEq

/-- The success payload of quality_assurance_review. -/
structure QualityReport where
  overall_score : ℚ
  document_type : String
  reviewer : String
  errors_found : ErrorInventory
  improvement_recommendations : List String
  quality_dimensions : QualityDimensions
  timestamp : String
deriving DecidableEq

/-- The four proposal strength sub-scores. -/
structure StrengthAssessment where
  value_proposition : ℚ
  credibility : ℚ
  urgency : ℚ
  roi_clarity : ℚ
deriving DecidableEq

/-- The success payload of strategic_analysis. -/
structure StrategyReport where
  proposal_readiness_score : ℚ
  proposal_strength_assessment : StrengthAssessment
  competitive_positioning : CompetitivePositioning
  client_psychology_insights : PsychologyInsights
  strategic_recommendations : List String
  optimization_opportunities : List String
deriving DecidableEq

/-- AnalysisResult: either a complete success payload or a failure record
carrying only an error description — exactly one variant populated. -/
inductive AnalysisResult (α : Type) where
  | success (value : α)
  | failure (error : String)
deriving DecidableEq

/-- quality_assurance_review.  The wall-clock reading datetime.now()
.isoformat() of the source is modelled as the explicit input now; the body
of the try-block body of the source is total, so the failure variant is never
produced. -/
def quality_assurance_review (now : String) (content : String) :
    AnalysisResult QualityReport :=
  let cs := content.data
  let errors := detect_errors cs
  .success
    ⟨calculate_quality_score cs errors,
     classify_document cs,
     "Clarity CPA",
     errors,
     generate_recommendations cs errors,
     ⟨score_grammar cs, score_clarity cs, score_professionalism cs,
      score_completeness cs⟩,
     now⟩

/-- strategic_analysis.  The context mapping is accepted and ignored, as in
the source, where no helper reads it; the try-block body is total. -/
def strategic_analysis (content : String) (_ctx : List (String × String)) :
    AnalysisResult StrategyReport :=
  let cs := content.data
  .success
    ⟨analyze_proposal_strength cs,
     ⟨score_value_proposition cs, score_credibility cs, score_urgency cs,
      score_roi_clarity cs⟩,
     analyze_competitive_position cs,
     analyze_client_psychology cs,
     generate_strategic_recommendations cs,
     identify_optimization_opportunities cs⟩

/-- Replace the timestamp field of a quality result by the empty string,
leaving every other field (and the failure variant) unchanged. -/
def stripTimestamp : AnalysisResult QualityReport → AnalysisResult QualityReport
  | .success q =>
    .success ⟨q.overall_score, q.document_type, q.reviewer, q.errors_found,
      q.improvement_recommendations, q.quality_dimensions, ""⟩
  | .failure e => .failure e

/-!  Helper lemmas. -/

/-- pyMax agrees with the order-theoretic max. -/
theorem pyMax_eq_max (a b : ℚ) : pyMax a b = max a b := (max_def a b).symm

/-- pyMin agrees with the order-theoretic min. -/
theorem pyMin_eq_min (a b : ℚ) : pyMin a b = min a b := (min_def a b).symm

/-- Clamping to [0,100] from below. -/
theorem clamp_nonneg (x : ℚ) : 0 ≤ pyMax 0 (pyMin 100 x) := by
  rw [pyMax_eq_max]
  exact le_max_left 0 _

/-- Clamping to [0,100] from above. -/
theorem clamp_le_100 (x : ℚ) : pyMax 0 (pyMin 100 x) ≤ 100 := by
  rw [pyMax_eq_max, pyMin_eq_min]
  exact max_le (by norm_num) (min_le_left _ _)

/-- Lower bound of the aggregate quality score. -/
theorem calculate_quality_score_nonneg (c : List Char) (e : ErrorInventory) :
    0 ≤ calculate_quality_score c e := clamp_nonneg _

/-- Upper bound of the aggregate quality score. -/
theorem calculate_quality_score_le_100 (c : List Char) (e : ErrorInventory) :
    calculate_quality_score c e ≤ 100 := clamp_le_100 _

/-- Lower bound of the grammar sub-score. -/
theorem score_grammar_nonneg (c : List Char) : 0 ≤ score_grammar c := by
  unfold score_grammar
  rw [pyMax_eq_max]
  exact le_max_left 0 _

/-- Upper bound of the grammar sub-score. -/
theorem score_grammar_le_100 (c : List Char) : score_grammar c ≤ 100 := by
  unfold score_grammar
  rw [pyMax_eq_max]
  refine max_le (by norm_num) ?_
  have : (0 : ℚ) ≤ 10 * ((detect_errors c).grammar_errors.length : ℚ) := by positivity
  linarith

/-- The clarity sub-score is one of the three step values. -/
theorem score_clarity_cases (c : List Char) :
    score_clarity c = 95 ∨ score_clarity c = 85 ∨ score_clarity c = 70 := by
  unfold score_clarity
  split_ifs <;> simp

/-- Bounds of the clarity sub-score. -/
theorem score_clarity_bounds (c : List Char) :
    0 ≤ score_clarity c ∧ score_clarity c ≤ 100 := by
  rcases score_clarity_cases c with h | h | h <;> rw [h] <;> norm_num

/-- Bounds of the professionalism sub-score. -/
theorem score_professionalism_bounds (c : List Char) :
    0 ≤ score_professionalism c ∧ score_professionalism c ≤ 100 :=
  ⟨clamp_nonneg _, clamp_le_100 _⟩

/-- Bounds of the completeness sub-score. -/
theorem score_completeness_bounds (c : List Char) :
    0 ≤ score_completeness c ∧ score_completeness c ≤ 100 := by
  have hk : ((sectionWords.filter fun w => containsWord w c).length : ℚ) ≤ 6 := by
    have h := List.length_filter_le (fun w => containsWord w c) sectionWords
    have h6 : sectionWords.length = 6 := by norm_num [sectionWords]
    exact_mod_cast h6 ▸ h
  have hlen : ((sectionWords.length : ℚ)) = 6 := by norm_num [sectionWords]
  constructor
  · unfold score_completeness
    positivity
  · unfold score_completeness
    rw [hlen]
    nlinarith [hk]

/-- Bounds of the proposal readiness score. -/
theorem analyze_proposal_strength_bounds (c : List Char) :
    0 ≤ analyze_proposal_strength c ∧ analyze_proposal_strength c ≤ 100 := by
  have hk : (((strengthFactors c).countP fun b => b : ℚ)) ≤ 7 := by
    have h := List.countP_le_length (p := fun b => b) (l := strengthFactors c)
    have h7 : (strengthFactors c).length = 7 := by simp [strengthFactors]
    exact_mod_cast h7 ▸ h
  have hlen : (((strengthFactors c).length : ℚ)) = 7 := by simp [strengthFactors]
  constructor
  · unfold analyze_proposal_strength
    positivity
  · unfold analyze_proposal_strength
    rw [hlen]
    nlinarith [hk]

/-- Bounds of the value-proposition sub-score. -/
theorem score_value_proposition_bounds (c : List Char) :
    0 ≤ score_value_proposition c ∧ score_value_proposition c ≤ 100 := by
  unfold score_value_proposition
  rw [pyMin_eq_min, pyMax_eq_max]
  refine ⟨le_min (by norm_num) ?_, min_le_left _ _⟩
  have : (20 : ℚ) ≤ max 20 (15 * (vocabHits valueIndicators c : ℚ)) := le_max_left _ _
  linarith

/-- Bounds of the credibility sub-score. -/
theorem score_credibility_bounds (c : List Char) :
    0 ≤ score_credibility c ∧ score_credibility c ≤ 100 := by
  unfold score_credibility
  rw [pyMin_eq_min, pyMax_eq_max]
  refine ⟨le_min (by norm_num) ?_, min_le_left _ _⟩
  have : (30 : ℚ) ≤ max 30 (15 * (vocabHits credibilityFactors c : ℚ)) := le_max_left _ _
  linarith

/-- Bounds of the urgency sub-score. -/
theorem score_urgency_bounds (c : List Char) :
    0 ≤ score_urgency c ∧ score_urgency c ≤ 100 := by
  unfold score_urgency
  rw [pyMin_eq_min]
  exact ⟨le_min (by norm_num) (by positivity), min_le_left _ _⟩

/-- The ROI clarity sub-score is one of the four tier values. -/
theorem score_roi_clarity_cases (c : List Char) :
    score_roi_clarity c = 95 ∨ score_roi_clarity c = 75 ∨ score_roi_clarity c = 60 ∨
      score_roi_clarity c = 30 := by
  unfold score_roi_clarity
  split_ifs <;> simp

/-- Bounds of the ROI clarity sub-score. -/
theorem score_roi_clarity_bounds (c : List Char) :
    0 ≤ score_roi_clarity c ∧ score_roi_clarity c ≤ 100 := by
  rcases score_roi_clarity_cases c with h | h | h | h <;> rw [h] <;> norm_num

/-!  Claim theorems. -/

/-- C1: for every input text (and, for strategic analysis, every context),
the overall_score of the success result, the four quality sub-scores, the
proposal_readiness_score and the four strategy sub-scores all lie in
[0,100]. -/
theorem C1_all_scores_in_range (now content : String) (ctx : List (String × String)) :
    ∃ q s, quality_assurance_review now content = .success q ∧
      strategic_analysis content ctx = .success s ∧
      0 ≤ q.overall_score ∧ q.overall_score ≤ 100 ∧
      0 ≤ q.quality_dimensions.grammar ∧ q.quality_dimensions.grammar ≤ 100 ∧
      0 ≤ q.quality_dimensions.clarity ∧ q.quality_dimensions.clarity ≤ 100 ∧
      0 ≤ q.quality_dimensions.professionalism ∧
      q.quality_dimensions.professionalism ≤ 100 ∧
      0 ≤ q.quality_dimensions.completeness ∧ q.quality_dimensions.completeness ≤ 100 ∧
      0 ≤ s.proposal_readiness_score ∧ s.proposal_readiness_score ≤ 100 ∧
      0 ≤ s.proposal_strength_assessment.value_proposition ∧
      s.proposal_strength_assessment.value_proposition ≤ 100 ∧
      0 ≤ s.proposal_strength_assessment.credibility ∧
      s.proposal_strength_assessment.credibility ≤ 100 ∧
      0 ≤ s.proposal_strength_assessment.urgency ∧
      s.proposal_strength_assessment.urgency ≤ 100 ∧
      0 ≤ s.proposal_strength_assessment.roi_clarity ∧
      s.proposal_strength_assessment.roi_clarity ≤ 100 := by
  refine ⟨_, _, rfl, rfl, calculate_quality_score_nonneg _ _,
    calculate_quality_score_le_100 _ _, score_grammar_nonneg _, score_grammar_le_100 _,
    (score_clarity_bounds _).1, (score_clarity_bounds _).2,
    (score_professionalism_bounds _).1, (score_professionalism_bounds _).2,
    (score_completeness_bounds _).1, (score_completeness_bounds _).2,
    (analyze_proposal_strength_bounds _).1, (analyze_proposal_strength_bounds _).2,
    (score_value_proposition_bounds _).1, (score_value_proposition_bounds _).2,
    (score_credibility_bounds _).1, (score_credibility_bounds _).2,
    (score_urgency_bounds _).1, (score_urgency_bounds _).2,
    (score_roi_clarity_bounds _).1, (score_roi_clarity_bounds _).2⟩

/-- C2: for every input, each public operation returns a complete success
record; the failure variant (success = false, error text only) exists in
the result type but is never produced, because the whole computation
behind the try block is a total function — so no fault can escape the
operation boundary and no partial result is ever returned. -/
theorem C2_operations_total_success (now content : String) (ctx : List (String × String)) :
    (∃ q, quality_assurance_review now content = .success q) ∧
      (∃ s, strategic_analysis content ctx = .success s) ∧
      (∀ e, quality_assurance_review now content ≠ .failure e) ∧
      (∀ e, strategic_analysis content ctx ≠ .failure e) := by
  exact ⟨⟨_, rfl⟩, ⟨_, rfl⟩, fun _ h => AnalysisResult.noConfusion h,
    fun _ h => AnalysisResult.noConfusion h⟩

/-- C4 counterexample: the quality result embeds the wall-clock reading in
its timestamp field, so two calls at different instants differ: the claim
of byte-identical results on identical input text is false. -/
theorem C4_counterexample :
    quality_assurance_review "t1" "" ≠ quality_assurance_review "t2" "" := by
  intro h
  have h2 : ("t1" : String) = "t2" :=
    congrArg
      (fun r => match r with
        | AnalysisResult.success q => q.timestamp
        | AnalysisResult.failure e => e) h
  exact absurd h2 (by decide)

/-- C4 amended: strategic_analysis is fully deterministic, and
quality_assurance_review is deterministic in every field except the
timestamp, which records the clock at the call. -/
theorem C4_amended_deterministic_up_to_timestamp (t1 t2 content : String)
    (ctx : List (String × String)) :
    stripTimestamp (quality_assurance_review t1 content) =
      stripTimestamp (quality_assurance_review t2 content) ∧
      strategic_analysis content ctx = strategic_analysis content ctx :=
  ⟨rfl, rfl⟩

/-- A filterMap whose function is an if-some collapses to filter-then-map. -/
theorem filterMap_ite_eq_map_filter {α β : Type} (P : α → Prop) [DecidablePred P]
    (f : α → β) (xs : List α) :
    (xs.filterMap fun a => if P a then some (f a) else none) =
      (xs.filter fun a => decide (P a)).map f := by
  induction xs with
  | nil => rfl
  | cons a as ih =>
    by_cases h : P a <;> simp [List.filterMap_cons, List.filter_cons, h, ih]

/-- Evaluation of parseQ on the digit string 1. -/
theorem parseQ_1 : parseQ "1".data = 1 := by
  rw [show parseQ "1".data = ((1 : ℕ) : ℚ) + ((0 : ℕ) : ℚ) / (10 : ℚ) ^ (0 : ℕ) from rfl]
  norm_num

/-- Evaluation of parseQ on the literal 1.01: exactly 101/100. -/
theorem parseQ_101 : parseQ "1.01".data = 101 / 100 := by
  rw [show parseQ "1.01".data = ((1 : ℕ) : ℚ) + ((1 : ℕ) : ℚ) / (10 : ℚ) ^ (2 : ℕ) from
    rfl]
  norm_num

/-- A filterMap whose function tests a Boolean collapses to
filter-then-map. -/
theorem filterMap_bif_eq_map_filter {α β : Type} (p : α → Bool) (f : α → β) (xs : List α) :
    (xs.filterMap fun a => if p a then some (f a) else none) = (xs.filter p).map f := by
  induction xs with
  | nil => rfl
  | cons a as ih => cases h : p a <;> simp [List.filterMap_cons, List.filter_cons, h, ih]

set_option maxRecDepth 100000 in
/-- C3 counterexample: the source compares IEEE binary64 doubles, not exact
values.  On the line 1 x 1.01 = 1 the exact difference |A*B - C| equals
0.01 exactly — not strictly greater — yet the program emits a
calculation_errors record, because float(1.01) rounds above 101/100 and
the double difference exceeds the double 0.01.  So the detector does not
emit exactly when the exact |A*B - C| is greater than 0.01. -/
theorem C3_counterexample :
    (detect_errors "1 x 1.01 = 1".data).calculation_errors =
      [⟨1, "1 × 1.01 = 1", "1.01", "Should be 1.01, not 1"⟩] ∧
    pyAbs (parseQ "1".data * parseQ "1.01".data - parseQ "1".data) = 1 / 100 ∧
    ¬ ((1 : ℚ) / 100 < 1 / 100) := by
  refine ⟨by decide, ?_, by norm_num⟩
  rw [parseQ_1, parseQ_101]
  norm_num [pyAbs]

set_option maxRecDepth 100000 in
/-- C3 amended: on every line, the detector emits one calculation_errors
record per match of the arithmetic shape A×B=C exactly when the
double-precision computation |float(A)*float(B) - float(C)| exceeds the
double nearest 0.01 — the comparison the source performs on IEEE doubles;
on the decimal-exact named inputs this coincides with the exact reading:
100 x 5 = 600 yields exactly one record with expected value 500.00 and
100 x 5 = 500 yields none; the rounded reading diverges from the exact one
at 1 x 1.01 = 1, which yields a record. -/
theorem C3_amended_calculation_check (n : Nat) (l : List Char) :
    calcErrorsOfLine n l =
      ((calcFindAll l).filter calcDeviates).map
        (fun m => mkCalcRecord n m (calcExpected m)) ∧
    (detect_errors "100 x 5 = 600".data).calculation_errors =
      [⟨1, "100 × 5 = 600", "500.00", "Should be 500.00, not 600"⟩] ∧
    (detect_errors "100 x 5 = 500".data).calculation_errors = [] ∧
    (detect_errors "1 x 1.01 = 1".data).calculation_errors =
      [⟨1, "1 × 1.01 = 1", "1.01", "Should be 1.01, not 1"⟩] := by
  refine ⟨?_, by decide, by decide, by decide⟩
  unfold calcErrorsOfLine
  exact filterMap_bif_eq_map_filter _ _ _

/-- C5 counterexample: a text with two dollar figures and the pattern
9.3x ROI — but no literal percent sign — scores 75, not the claimed 95:
the 95 tier requires the percent-based pattern digits-percent near roi. -/
theorem C5_counterexample :
    score_roi_clarity "$100 and $200 give 9.3x ROI".data = 75 ∧ (75 : ℚ) ≠ 95 :=
  ⟨by decide, by norm_num⟩

/-- C5 amended: ROI clarity is tiered, but the 95 tier requires two dollar
figures plus a percent-sign ROI pattern (digits followed by the percent
character on the same line as roi); a multiplier form like 9.3x ROI without
a percent sign falls to the 75 tier; the bare word roi alone gives 60; none
of these gives 30. -/
theorem C5_amended_roi_tiers :
    score_roi_clarity "$100 grows to $200 with 40% roi".data = 95 ∧
    score_roi_clarity "$100 and $200 give 9.3x ROI".data = 75 ∧
    score_roi_clarity "great roi ahead".data = 60 ∧
    score_roi_clarity "hello there".data = 30 :=
  ⟨by decide, by decide, by decide, by decide⟩

/-- C6 counterexample: the trigger sums award 10 points per distinct
vocabulary word present, not per occurrence, so a document repeating the
single word urgent nine times has urgency sum 10 — it never exceeds 20 and
urgency is not among its motivators. -/
theorem C6_counterexample :
    urgencyTriggerScore
      "urgent urgent urgent urgent urgent urgent urgent urgent urgent".data = 10 ∧
    (analyze_client_psychology
      "urgent urgent urgent urgent urgent urgent urgent urgent urgent".data).primary_motivators
      = [] :=
  ⟨by decide, by decide⟩

/-- C6 amended: hit sums count distinct vocabulary words (10 points each),
so repeating one word never moves the sum; a document with three distinct
urgency triggers has sum 30 which exceeds 20 and urgency is then a primary
motivator; a document with no trigger words yields no motivators and the
clarity-trust trigger set. -/
theorem C6_amended_motivators :
    20 < urgencyTriggerScore "urgent critical immediate".data ∧
    "urgency" ∈
      (analyze_client_psychology "urgent critical immediate".data).primary_motivators ∧
    (analyze_client_psychology "hello".data).primary_motivators = [] ∧
    (analyze_client_psychology "hello".data).psychological_triggers =
      ["clarity", "trust"] :=
  ⟨by decide, by decide, by decide, by decide⟩

/-- C8: classification checks the keyword categories in priority order and
the first match wins: a proposal keyword forces business_proposal, report
keywords only fire in its absence, communication keywords after both, and
with no category keyword the result is general_business_document. -/
theorem C8_classification_priority (content : List Char) :
    (containsWord "investment" content = true → containsWord "proposal" content = true →
      classify_document content = "business_proposal") ∧
    ((proposalKeywords.any fun w => containsWord w content) = false →
      (reportKeywords.any fun w => containsWord w content) = true →
      classify_document content = "business_report") ∧
    ((proposalKeywords.any fun w => containsWord w content) = false →
      (reportKeywords.any fun w => containsWord w content) = false →
      (communicationKeywords.any fun w => containsWord w content) = true →
      classify_document content = "business_communication") ∧
    ((proposalKeywords.any fun w => containsWord w content) = false →
      (reportKeywords.any fun w => containsWord w content) = false →
      (communicationKeywords.any fun w => containsWord w content) = false →
      classify_document content = "general_business_document") := by
  refine ⟨?_, ?_, ?_, ?_⟩
  · intro hi _
    have h1 : (proposalKeywords.any fun w => containsWord w content) = true := by
      simp only [proposalKeywords, List.any_cons, List.any_nil, Bool.or_eq_true,
        Bool.or_false]
      exact Or.inr (Or.inr hi)
    simp [classify_document, h1]
  · intro h1 h2
    simp [classify_document, h1, h2]
  · intro h1 h2 h3
    simp [classify_document, h1, h2, h3]
  · intro h1 h2 h3
    simp [classify_document, h1, h2, h3]

/-- C8 witness: one concrete text per category, exercising every branch of
the priority chain. -/
theorem C8_classification_priority_witness :
    classify_document "an investment proposal".data = "business_proposal" ∧
    classify_document "the report".data = "business_report" ∧
    classify_document "an email".data = "business_communication" ∧
    classify_document "zzz".data = "general_business_document" :=
  ⟨(C8_classification_priority "an investment proposal".data).1 (by decide) (by decide),
   (C8_classification_priority "the report".data).2.1 (by decide) (by decide),
   (C8_classification_priority "an email".data).2.2.1 (by decide) (by decide) (by decide),
   (C8_classification_priority "zzz".data).2.2.2 (by decide) (by decide) (by decide)⟩

/-- Evaluation of the overall score for a document with k defect records,
at most 500 characters and no dollar bonus. -/
theorem overallScore_eval (content : List Char) (k : Nat)
    (hk : totalErrors (detect_errors content) = k)
    (hlen : ¬ 500 < content.length)
    (hdol : dollarBonus content = 0)
    (hk20 : (k : ℚ) ≤ 20) :
    overallScoreOf content = 100 - 5 * (k : ℚ) := by
  unfold overallScoreOf calculate_quality_score qualityRaw lengthBonus
  rw [hk, hdol, if_neg hlen]
  rw [pyMax_eq_max, pyMin_eq_min]
  have h1 : (100 : ℚ) - 5 * (k : ℚ) + 0 + 0 = 100 - 5 * (k : ℚ) := by ring
  rw [h1]
  have h2 : (100 : ℚ) - 5 * (k : ℚ) ≤ 100 := by
    have : (0 : ℚ) ≤ (k : ℚ) := Nat.cast_nonneg k
    linarith
  have h3 : (0 : ℚ) ≤ 100 - 5 * (k : ℚ) := by linarith
  rw [min_eq_right h2, max_eq_right h3]

/-- splitOnCh always returns at least one piece. -/
theorem splitOnCh_ne_nil (sep : Char) (cs : List Char) : splitOnCh sep cs ≠ [] := by
  cases cs with
  | nil => simp [splitOnCh]
  | cons c rest =>
    unfold splitOnCh
    by_cases h : c = sep
    · simp [h]
    · simp only [if_neg h]
      cases hpp : splitOnCh sep rest <;> simp

/-- Splitting across an explicit separator concatenates the two splits. -/
theorem splitOnCh_append_sep (sep : Char) (xs ys : List Char) :
    splitOnCh sep (xs ++ sep :: ys) = splitOnCh sep xs ++ splitOnCh sep ys := by
  induction xs with
  | nil => simp [splitOnCh]
  | cons c rest ih =>
    by_cases h : c = sep
    · simp only [List.cons_append, splitOnCh, if_pos h, List.append_eq]
      exact congrArg (List.cons []) ih
    · simp only [List.cons_append, splitOnCh, if_neg h, List.append_eq]
      rw [ih]
      cases hpp : splitOnCh sep rest with
      | nil => exact absurd hpp (splitOnCh_ne_nil sep rest)
      | cons l ls => simp

/-- The detector worker distributes over concatenated line lists, numbering
the second block after the first. -/
theorem detectAux_append (ls₁ ls₂ : List (List Char)) (n : Nat) :
    detectAux n (ls₁ ++ ls₂) =
      ((detectAux n ls₁).1 ++ (detectAux (n + ls₁.length) ls₂).1,
       (detectAux n ls₁).2.1 ++ (detectAux (n + ls₁.length) ls₂).2.1,
       (detectAux n ls₁).2.2 ++ (detectAux (n + ls₁.length) ls₂).2.2) := by
  induction ls₁ generalizing n with
  | nil => simp [detectAux]
  | cons l ls ih =>
    simp only [List.cons_append, detectAux, List.append_eq, List.length_cons]
    rw [ih (n + 1)]
    have h : n + 1 + ls.length = n + (ls.length + 1) := by omega
    rw [h]
    simp [List.append_assoc]

/-- Length form of the filterMap collapse. -/
theorem length_filterMap_ite {α β : Type} (P : α → Prop) [DecidablePred P]
    (f : α → β) (xs : List α) :
    (xs.filterMap fun a => if P a then some (f a) else none).length =
      (xs.filter fun a => decide (P a)).length := by
  rw [filterMap_ite_eq_map_filter, List.length_map]

/-- The number of spelling records on a line counts the matching rules and
does not depend on the line number. -/
theorem spellingErrorsOfLine_length (n : Nat) (l : List Char) :
    (spellingErrorsOfLine n l).length =
      (spellingPatterns.filter fun r => reSearch true r.pat l).length := by
  unfold spellingErrorsOfLine
  rw [length_filterMap_ite]
  congr 1
  simp

/-- Grammar analogue of spellingErrorsOfLine_length. -/
theorem grammarErrorsOfLine_length (n : Nat) (l : List Char) :
    (grammarErrorsOfLine n l).length =
      (grammarPatterns.filter fun r => reSearch true r.pat l).length := by
  unfold grammarErrorsOfLine
  rw [length_filterMap_ite]
  congr 1
  simp

/-- A newline-free needle is a prefix of xs ++ newline ++ t iff it is a
prefix of xs. -/
theorem isPrefixOf_append_nl (w xs t : List Char) (hw : '\n' ∉ w) :
    w.isPrefixOf (xs ++ '\n' :: t) = w.isPrefixOf xs := by
  induction w generalizing xs with
  | nil => simp [List.isPrefixOf]
  | cons c w' ih =>
    cases xs with
    | nil =>
      have hc : (c == '\n') = false := by
        simp only [beq_eq_false_iff_ne, ne_eq]
        exact fun h => hw (h ▸ List.mem_cons_self c w')
      simp [List.isPrefixOf, hc]
    | cons x xs' =>
      have hw' : '\n' ∉ w' := fun h => hw (List.mem_cons_of_mem c h)
      simp [List.isPrefixOf, ih xs' hw']

/-- Substring occurrences of a newline-free needle in xs ++ newline ++ t
split into occurrences in xs and occurrences in t. -/
theorem substrB_append_nl (w xs t : List Char) (hw : '\n' ∉ w) (hne : w ≠ []) :
    substrB w (xs ++ '\n' :: t) = (substrB w xs || substrB w t) := by
  induction xs with
  | nil =>
    cases w with
    | nil => exact absurd rfl hne
    | cons c w' =>
      have hc : (c == '\n') = false := by
        simp only [beq_eq_false_iff_ne, ne_eq]
        exact fun h => hw (h ▸ List.mem_cons_self c w')
      simp [substrB, List.isPrefixOf, hc]
  | cons x xs' ih =>
    show substrB w ((x :: xs') ++ '\n' :: t) = _
    rw [List.cons_append, substrB, ← List.cons_append, isPrefixOf_append_nl w _ t hw, ih]
    rw [show substrB w (x :: xs') = (w.isPrefixOf (x :: xs') || substrB w xs') from rfl]
    rw [Bool.or_assoc]

/-- Appending a newline and a lowercase line that does not contain the
needle leaves the containment test unchanged. -/
theorem containsWord_append_line (w : String) (content t : List Char)
    (h1 : '\n' ∉ w.data) (h2 : w.data ≠ []) (h3 : substrB w.data t = false)
    (h4 : List.map pyLowerChar t = t) :
    containsWord w (content ++ '\n' :: t) = containsWord w content := by
  unfold containsWord pyLower
  rw [List.map_append, show List.map pyLowerChar ('\n' :: t) =
    '\n' :: List.map pyLowerChar t from rfl, h4]
  rw [substrB_append_nl _ _ _ h1 h2, h3, Bool.or_false]

/-- Appending the acheive line does not add a dollar sign. -/
theorem contains_append_acheive (content : List Char) :
    (content ++ '\n' :: "acheive".data).contains '$' = content.contains '$' := by
  induction content with
  | nil => decide
  | cons c cs ih => simp only [List.cons_append, List.contains_cons, ih]

/-- Appending the acheive line leaves the 10-point dollar bonus unchanged. -/
theorem dollarBonus_append_acheive (content : List Char) :
    dollarBonus (content ++ '\n' :: "acheive".data) = dollarBonus content := by
  unfold dollarBonus
  rw [contains_append_acheive]
  have hw : (dollarWordsList.any fun w =>
      containsWord w (content ++ '\n' :: "acheive".data))
      = (dollarWordsList.any fun w => containsWord w content) := by
    simp only [dollarWordsList, List.any_cons, List.any_nil]
    rw [containsWord_append_line _ _ _ (by decide) (by decide) (by decide) (by decide),
      containsWord_append_line _ _ _ (by decide) (by decide) (by decide) (by decide),
      containsWord_append_line _ _ _ (by decide) (by decide) (by decide) (by decide)]
  rw [hw]

/-- Appending the misspelled line acheive adds exactly one spelling record,
no grammar record and no calculation record. -/
theorem detect_append_acheive (content : List Char) :
    (detect_errors (content ++ '\n' :: "acheive".data)).spelling_errors.length =
      (detect_errors content).spelling_errors.length + 1 ∧
    (detect_errors (content ++ '\n' :: "acheive".data)).grammar_errors.length =
      (detect_errors content).grammar_errors.length ∧
    (detect_errors (content ++ '\n' :: "acheive".data)).calculation_errors.length =
      (detect_errors content).calculation_errors.length := by
  unfold detect_errors
  rw [splitOnCh_append_sep,
    show splitOnCh '\n' "acheive".data = ["acheive".data] from by decide,
    detectAux_append]
  simp only [List.length_append, detectAux, List.append_nil]
  refine ⟨?_, ?_, ?_⟩
  · rw [spellingErrorsOfLine_length]
    rw [show (spellingPatterns.filter fun r =>
      reSearch true r.pat "acheive".data).length = 1 from by decide]
  · rw [grammarErrorsOfLine_length]
    rw [show (grammarPatterns.filter fun r =>
      reSearch true r.pat "acheive".data).length = 0 from by decide]
    omega
  · rw [show calcErrorsOfLine ((1 : ℕ) + (splitOnCh '\n' content).length)
      "acheive".data = [] from by
        unfold calcErrorsOfLine
        rw [show calcFindAll "acheive".data = [] from by decide]
        rfl]
    simp

/-- The clamp to [0,100] is monotone. -/
theorem clamp_mono {x y : ℚ} (h : x ≤ y) :
    pyMax 0 (pyMin 100 x) ≤ pyMax 0 (pyMin 100 y) := by
  rw [pyMax_eq_max, pyMax_eq_max, pyMin_eq_min, pyMin_eq_min]
  exact max_le_max le_rfl (min_le_min le_rfl h)

/-- C7 amended: inserting the additional misspelling instance as a new line
of the document appends exactly one record to spelling_errors, and the
overall score never increases; it strictly decreases whenever the insertion
does not cross the 500-character bonus threshold and the old score is
strictly between the clamp bounds 0 and 100.  (Inserting on a line already
matching the same pattern, crossing the length-bonus threshold, or sitting
at a clamp bound leaves the score unchanged — see the counterexample.) -/
theorem C7_amended_insert_misspelling (content : List Char) :
    (detect_errors (content ++ '\n' :: "acheive".data)).spelling_errors.length =
      (detect_errors content).spelling_errors.length + 1 ∧
    overallScoreOf (content ++ '\n' :: "acheive".data) ≤ overallScoreOf content ∧
    ((content.length + 8 ≤ 500 ∨ 500 < content.length) →
      0 < overallScoreOf content →
      overallScoreOf content < 100 →
      overallScoreOf (content ++ '\n' :: "acheive".data) < overallScoreOf content) := by
  obtain ⟨hsp, hgr, hca⟩ := detect_append_acheive content
  have hconsist : ∀ x : List Char, (detect_errors x).consistency_errors = [] :=
    fun x => rfl
  have hlogic : ∀ x : List Char, (detect_errors x).logic_errors = [] := fun x => rfl
  have hk : totalErrors (detect_errors (content ++ '\n' :: "acheive".data)) =
      totalErrors (detect_errors content) + 1 := by
    unfold totalErrors
    rw [hsp, hgr, hca, hconsist, hconsist, hlogic, hlogic]
    omega
  have hlen : (content ++ '\n' :: "acheive".data).length = content.length + 8 := by
    simp [List.length_append]
  have hdol := dollarBonus_append_acheive content
  have hlb_le : lengthBonus (content ++ '\n' :: "acheive".data) ≤ 5 := by
    unfold lengthBonus
    split <;> norm_num
  have hlb_nonneg : (0 : ℚ) ≤ lengthBonus content := by
    unfold lengthBonus
    split <;> norm_num
  have hraw : qualityRaw (content ++ '\n' :: "acheive".data)
      (detect_errors (content ++ '\n' :: "acheive".data)) =
      100 - 5 * ((totalErrors (detect_errors content) : ℚ) + 1) +
        lengthBonus (content ++ '\n' :: "acheive".data) + dollarBonus content := by
    unfold qualityRaw
    rw [hk, hdol]
    push_cast
    ring
  have hraw2 : qualityRaw content (detect_errors content) =
      100 - 5 * (totalErrors (detect_errors content) : ℚ) + lengthBonus content +
        dollarBonus content := rfl
  refine ⟨hsp, ?_, ?_⟩
  · unfold overallScoreOf calculate_quality_score
    apply clamp_mono
    rw [hraw, hraw2]
    linarith
  · intro hflip h0 h100
    have hlb_eq : lengthBonus (content ++ '\n' :: "acheive".data) =
        lengthBonus content := by
      unfold lengthBonus
      rw [hlen]
      rcases hflip with h | h
      · rw [if_neg (by omega), if_neg (by omega)]
      · rw [if_pos (by omega), if_pos (by omega)]
    have hx1 : qualityRaw (content ++ '\n' :: "acheive".data)
        (detect_errors (content ++ '\n' :: "acheive".data)) =
        qualityRaw content (detect_errors content) - 5 := by
      rw [hraw, hlb_eq, hraw2]
      ring
    unfold overallScoreOf calculate_quality_score at h0 h100 ⊢
    rw [hx1]
    rw [pyMax_eq_max, pyMin_eq_min] at h0 h100 ⊢
    rw [pyMax_eq_max, pyMin_eq_min]
    generalize hX : qualityRaw content (detect_errors content) = X at h0 h100 ⊢
    have hx_pos : 0 < X := by
      by_contra hle
      push_neg at hle
      have hzero : max 0 (min 100 X) = 0 := by
        rw [max_eq_left]
        exact le_trans (min_le_right _ _) hle
      rw [hzero] at h0
      exact lt_irrefl 0 h0
    have hx_lt : X < 100 := by
      by_contra hge
      push_neg at hge
      have hmin : min 100 X = 100 := min_eq_left hge
      rw [hmin] at h100
      have h100' : (100 : ℚ) ≤ max 0 100 := le_max_right _ _
      linarith
    have hcollapse : max 0 (min 100 X) = X := by
      rw [min_eq_right (le_of_lt hx_lt), max_eq_right (le_of_lt hx_pos)]
    rw [hcollapse]
    refine max_lt hx_pos ?_
    have hm5 : min 100 (X - 5) ≤ X - 5 := min_le_right _ _
    linarith

/-- C7 amended witness at the one-line document acheive: appending a fresh
acheive line adds one spelling record and strictly lowers the score. -/
theorem C7_amended_insert_misspelling_witness :
    (detect_errors ("acheive".data ++ '\n' :: "acheive".data)).spelling_errors.length =
      (detect_errors "acheive".data).spelling_errors.length + 1 ∧
    overallScoreOf ("acheive".data ++ '\n' :: "acheive".data) <
      overallScoreOf "acheive".data := by
  have h95 : overallScoreOf "acheive".data = 100 - 5 * ((1 : ℕ) : ℚ) :=
    overallScore_eval _ 1 (by decide) (by decide) (by decide) (by norm_num)
  refine ⟨(C7_amended_insert_misspelling "acheive".data).1, ?_⟩
  exact (C7_amended_insert_misspelling "acheive".data).2.2 (Or.inl (by decide))
    (by rw [h95]; norm_num) (by rw [h95]; norm_num)

/-- C7 counterexample: inserting a second instance of the misspelling
acheive on the line that already carries one appends no new record to
spelling_errors and leaves overall_score unchanged at 95, which is not the
floor 0 — refuting strict decrease and the exactly-one-new-record claim. -/
theorem C7_counterexample :
    (detect_errors "acheive acheive".data).spelling_errors.length =
      (detect_errors "acheive".data).spelling_errors.length ∧
    overallScoreOf "acheive acheive".data = overallScoreOf "acheive".data ∧
    overallScoreOf "acheive".data ≠ 0 := by
  have e1 : overallScoreOf "acheive".data = 100 - 5 * ((1 : ℕ) : ℚ) :=
    overallScore_eval _ 1 (by decide) (by decide) (by decide) (by norm_num)
  have e2 : overallScoreOf "acheive acheive".data = 100 - 5 * ((1 : ℕ) : ℚ) :=
    overallScore_eval _ 1 (by decide) (by decide) (by decide) (by norm_num)
  refine ⟨by decide, e2.trans e1.symm, ?_⟩
  rw [e1]
  norm_num

/-- Every line of the worker input that the accurate rule matches
contributes a record suggesting accurate. -/
theorem mem_spelling_detectAux (n : Nat) (ls : List (List Char)) (l : List Char)
    (hl : l ∈ ls) (hm : reSearch true (wordPat "accurate") l = true) :
    ∃ r ∈ (detectAux n ls).1, r.suggestion = "accurate" := by
  induction ls generalizing n with
  | nil => exact absurd hl (List.not_mem_nil l)
  | cons a as ih =>
    rcases List.mem_cons.mp hl with rfl | hl'
    · refine ⟨⟨n, "accurate", "accurate", String.mk (pyStrip l)⟩, ?_, rfl⟩
      show _ ∈ spellingErrorsOfLine n l ++ (detectAux (n + 1) as).1
      apply List.mem_append_left
      unfold spellingErrorsOfLine
      apply List.mem_filterMap.mpr
      refine ⟨⟨wordPat "accurate", "accurate", "accurate"⟩, by decide, ?_⟩
      rw [if_pos hm]
    · obtain ⟨r, hr, hs⟩ := ih (n + 1) hl'
      exact ⟨r, List.mem_append_right _ hr, hs⟩

/-- C9: every document containing the correctly spelled word accurate as a
whole word (any case, i.e. some line matches the accurate spelling rule) is
reported with a spelling record whose suggestion is accurate, and the
document therefore counts at least one defect, deducting 5 points from the
raw quality score before clamping. -/
theorem C9_accurate_flagged (content : List Char)
    (h : ∃ l ∈ splitOnCh '\n' content, reSearch true (wordPat "accurate") l = true) :
    (∃ r ∈ (detect_errors content).spelling_errors, r.suggestion = "accurate") ∧
    1 ≤ totalErrors (detect_errors content) ∧
    qualityRaw content (detect_errors content) ≤
      95 + lengthBonus content + dollarBonus content := by
  obtain ⟨l, hl, hm⟩ := h
  have hmem : ∃ r ∈ (detect_errors content).spelling_errors, r.suggestion = "accurate" :=
    mem_spelling_detectAux 1 (splitOnCh '\n' content) l hl hm
  have hk : 1 ≤ totalErrors (detect_errors content) := by
    obtain ⟨r, hr, _⟩ := hmem
    have hne : (detect_errors content).spelling_errors ≠ [] := List.ne_nil_of_mem hr
    have hpos : 0 < (detect_errors content).spelling_errors.length :=
      List.length_pos.mpr hne
    unfold totalErrors
    omega
  refine ⟨hmem, hk, ?_⟩
  unfold qualityRaw
  have hkq : (1 : ℚ) ≤ (totalErrors (detect_errors content) : ℚ) := by exact_mod_cast hk
  linarith

/-- C9 witness: the one-word document accurate is itself flagged. -/
theorem C9_accurate_flagged_witness :
    (∃ r ∈ (detect_errors "accurate".data).spelling_errors,
      r.suggestion = "accurate") ∧
    1 ≤ totalErrors (detect_errors "accurate".data) ∧
    qualityRaw "accurate".data (detect_errors "accurate".data) ≤
      95 + lengthBonus "accurate".data + dollarBonus "accurate".data :=
  C9_accurate_flagged "accurate".data ⟨"accurate".data, by decide, by decide⟩

/-- Spelling records of a line carry the number of that line. -/
theorem spellingErrorsOfLine_line (m : Nat) (l : List Char) :
    ∀ r ∈ spellingErrorsOfLine m l, r.line = m := by
  intro r hr
  obtain ⟨p, hp, hf⟩ := List.mem_filterMap.mp hr
  by_cases hc : reSearch true p.pat l = true
  · rw [if_pos hc] at hf
    cases Option.some.inj hf
    rfl
  · rw [if_neg hc] at hf
    exact absurd hf (by simp)

/-- Grammar records of a line carry the number of that line. -/
theorem grammarErrorsOfLine_line (m : Nat) (l : List Char) :
    ∀ r ∈ grammarErrorsOfLine m l, r.line = m := by
  intro r hr
  obtain ⟨p, hp, hf⟩ := List.mem_filterMap.mp hr
  by_cases hc : reSearch true p.pat l = true
  · rw [if_pos hc] at hf
    cases Option.some.inj hf
    rfl
  · rw [if_neg hc] at hf
    exact absurd hf (by simp)

/-- Spelling records produced from line m onward have line numbers ≥ m. -/
theorem detectAux_spelling_line_ge (ls : List (List Char)) (m : Nat) :
    ∀ r ∈ (detectAux m ls).1, m ≤ r.line := by
  induction ls generalizing m with
  | nil => intro r hr; exact absurd hr (List.not_mem_nil r)
  | cons a as ih =>
    intro r hr
    rcases List.mem_append.mp hr with h | h
    · rw [spellingErrorsOfLine_line m a r h]
    · exact le_trans (Nat.le_succ m) (ih (m + 1) r h)

/-- Grammar records produced from line m onward have line numbers ≥ m. -/
theorem detectAux_grammar_line_ge (ls : List (List Char)) (m : Nat) :
    ∀ r ∈ (detectAux m ls).2.1, m ≤ r.line := by
  induction ls generalizing m with
  | nil => intro r hr; exact absurd hr (List.not_mem_nil r)
  | cons a as ih =>
    intro r hr
    rcases List.mem_append.mp hr with h | h
    · rw [grammarErrorsOfLine_line m a r h]
    · exact le_trans (Nat.le_succ m) (ih (m + 1) r h)

/-- Each display text occurs at most once in the spelling table. -/
theorem spelling_disp_count (p : PatRule) (hp : p ∈ spellingPatterns) :
    (spellingPatterns.filter fun q => q.disp == p.disp).length ≤ 1 := by
  simp only [spellingPatterns, List.mem_cons, List.not_mem_nil, or_false] at hp
  rcases hp with rfl | rfl | rfl | rfl | rfl | rfl | rfl <;> decide

/-- Each display text occurs at most once in the grammar table. -/
theorem grammar_disp_count (p : PatRule) (hp : p ∈ grammarPatterns) :
    (grammarPatterns.filter fun q => q.disp == p.disp).length ≤ 1 := by
  simp only [grammarPatterns, List.mem_cons, List.not_mem_nil, or_false] at hp
  rcases hp with rfl | rfl | rfl | rfl | rfl | rfl <;> decide

/-- Within one line, at most one spelling record carries a given line
number and pattern display text. -/
theorem perline_spelling_filter_le_one (m n : Nat) (l : List Char) (p : PatRule)
    (hp : p ∈ spellingPatterns) :
    ((spellingErrorsOfLine m l).filter
      fun r => r.line == n && r.text == p.disp).length ≤ 1 := by
  rw [show spellingErrorsOfLine m l =
      ((spellingPatterns.filter fun q => decide (reSearch true q.pat l = true)).map
        fun q => (⟨m, q.disp, q.suggestion, String.mk (pyStrip l)⟩ : DefectRecord))
    from by unfold spellingErrorsOfLine; exact filterMap_ite_eq_map_filter _ _ _]
  rw [List.filter_map, List.length_map]
  have hsub : ((spellingPatterns.filter
      fun q => decide (reSearch true q.pat l = true)).filter
      ((fun r => r.line == n && r.text == p.disp) ∘
        fun q => (⟨m, q.disp, q.suggestion, String.mk (pyStrip l)⟩ :
          DefectRecord))).Sublist
      (spellingPatterns.filter
        ((fun r => r.line == n && r.text == p.disp) ∘
          fun q => (⟨m, q.disp, q.suggestion, String.mk (pyStrip l)⟩ :
            DefectRecord))) :=
    List.Sublist.filter _ (List.filter_sublist _)
  refine le_trans hsub.length_le ?_
  have heq : (spellingPatterns.filter
      ((fun r => r.line == n && r.text == p.disp) ∘
        fun q => (⟨m, q.disp, q.suggestion, String.mk (pyStrip l)⟩ : DefectRecord))) =
      spellingPatterns.filter fun q => (m == n) && (q.disp == p.disp) := rfl
  rw [heq]
  by_cases hmn : m = n
  · subst hmn
    simp only [beq_self_eq_true, Bool.true_and]
    exact spelling_disp_count p hp
  · have hf : (m == n) = false := by simp [hmn]
    simp [hf]

/-- Within one line, at most one grammar record carries a given line number
and pattern display text. -/
theorem perline_grammar_filter_le_one (m n : Nat) (l : List Char) (p : PatRule)
    (hp : p ∈ grammarPatterns) :
    ((grammarErrorsOfLine m l).filter
      fun r => r.line == n && r.text == p.disp).length ≤ 1 := by
  rw [show grammarErrorsOfLine m l =
      ((grammarPatterns.filter fun q => decide (reSearch true q.pat l = true)).map
        fun q => (⟨m, q.disp, q.suggestion, String.mk (pyStrip l)⟩ : DefectRecord))
    from by unfold grammarErrorsOfLine; exact filterMap_ite_eq_map_filter _ _ _]
  rw [List.filter_map, List.length_map]
  have hsub : ((grammarPatterns.filter
      fun q => decide (reSearch true q.pat l = true)).filter
      ((fun r => r.line == n && r.text == p.disp) ∘
        fun q => (⟨m, q.disp, q.suggestion, String.mk (pyStrip l)⟩ :
          DefectRecord))).Sublist
      (grammarPatterns.filter
        ((fun r => r.line == n && r.text == p.disp) ∘
          fun q => (⟨m, q.disp, q.suggestion, String.mk (pyStrip l)⟩ :
            DefectRecord))) :=
    List.Sublist.filter _ (List.filter_sublist _)
  refine le_trans hsub.length_le ?_
  have heq : (grammarPatterns.filter
      ((fun r => r.line == n && r.text == p.disp) ∘
        fun q => (⟨m, q.disp, q.suggestion, String.mk (pyStrip l)⟩ : DefectRecord))) =
      grammarPatterns.filter fun q => (m == n) && (q.disp == p.disp) := rfl
  rw [heq]
  by_cases hmn : m = n
  · subst hmn
    simp only [beq_self_eq_true, Bool.true_and]
    exact grammar_disp_count p hp
  · have hf : (m == n) = false := by simp [hmn]
    simp [hf]

/-- Across all lines, at most one spelling record carries a given line
number and pattern display text. -/
theorem detectAux_spelling_filter_le_one (n : Nat) (p : PatRule)
    (hp : p ∈ spellingPatterns) (ls : List (List Char)) (m : Nat) :
    (((detectAux m ls).1).filter
      fun r => r.line == n && r.text == p.disp).length ≤ 1 := by
  induction ls generalizing m with
  | nil => simp [detectAux]
  | cons a as ih =>
    show ((spellingErrorsOfLine m a ++ (detectAux (m + 1) as).1).filter _).length ≤ 1
    rw [List.filter_append, List.length_append]
    by_cases hmn : m = n
    · have htail : (((detectAux (m + 1) as).1).filter
          fun r => r.line == n && r.text == p.disp) = [] := by
        rw [List.filter_eq_nil_iff]
        intro r hr
        have hge := detectAux_spelling_line_ge as (m + 1) r hr
        have hln : (r.line == n) = false := by
          simp only [beq_eq_false_iff_ne, ne_eq]
          omega
        simp [hln]
      rw [htail]
      simp only [List.length_nil, Nat.add_zero]
      exact perline_spelling_filter_le_one m n a p hp
    · have hhead : ((spellingErrorsOfLine m a).filter
          fun r => r.line == n && r.text == p.disp) = [] := by
        rw [List.filter_eq_nil_iff]
        intro r hr
        have hline := spellingErrorsOfLine_line m a r hr
        have hln : (r.line == n) = false := by
          simp only [beq_eq_false_iff_ne, ne_eq]
          omega
        simp [hln]
      rw [hhead]
      simp only [List.length_nil, Nat.zero_add]
      exact ih (m + 1)

/-- Across all lines, at most one grammar record carries a given line
number and pattern display text. -/
theorem detectAux_grammar_filter_le_one (n : Nat) (p : PatRule)
    (hp : p ∈ grammarPatterns) (ls : List (List Char)) (m : Nat) :
    (((detectAux m ls).2.1).filter
      fun r => r.line == n && r.text == p.disp).length ≤ 1 := by
  induction ls generalizing m with
  | nil => simp [detectAux]
  | cons a as ih =>
    show ((grammarErrorsOfLine m a ++ (detectAux (m + 1) as).2.1).filter _).length ≤ 1
    rw [List.filter_append, List.length_append]
    by_cases hmn : m = n
    · have htail : (((detectAux (m + 1) as).2.1).filter
          fun r => r.line == n && r.text == p.disp) = [] := by
        rw [List.filter_eq_nil_iff]
        intro r hr
        have hge := detectAux_grammar_line_ge as (m + 1) r hr
        have hln : (r.line == n) = false := by
          simp only [beq_eq_false_iff_ne, ne_eq]
          omega
        simp [hln]
      rw [htail]
      simp only [List.length_nil, Nat.add_zero]
      exact perline_grammar_filter_le_one m n a p hp
    · have hhead : ((grammarErrorsOfLine m a).filter
          fun r => r.line == n && r.text == p.disp) = [] := by
        rw [List.filter_eq_nil_iff]
        intro r hr
        have hline := grammarErrorsOfLine_line m a r hr
        have hln : (r.line == n) = false := by
          simp only [beq_eq_false_iff_ne, ne_eq]
          omega
        simp [hln]
      rw [hhead]
      simp only [List.length_nil, Nat.zero_add]
      exact ih (m + 1)

/-- C10: for every line and every spelling or grammar rule the detector
emits at most one record per line-pattern pair — a pattern occurring twice
within one line yields one record, while the same two occurrences on
separate lines yield one record each. -/
theorem C10_per_line_pattern_at_most_one (content : List Char) (n : Nat) (p : PatRule) :
    (p ∈ spellingPatterns →
      ((detect_errors content).spelling_errors.filter
        fun r => r.line == n && r.text == p.disp).length ≤ 1) ∧
    (p ∈ grammarPatterns →
      ((detect_errors content).grammar_errors.filter
        fun r => r.line == n && r.text == p.disp).length ≤ 1) ∧
    (detect_errors "acheive and acheive".data).spelling_errors.length = 1 ∧
    (detect_errors "acheive\nacheive".data).spelling_errors.length = 2 := by
  refine ⟨fun hp => ?_, fun hp => ?_, by decide, by decide⟩
  · exact detectAux_spelling_filter_le_one n p hp (splitOnCh '\n' content) 1
  · exact detectAux_grammar_filter_le_one n p hp (splitOnCh '\n' content) 1

/-- C10 witness: line 1 of a line holding acheive twice carries at most one
record for the acheive spelling rule, and likewise for the dependng grammar
rule on a line holding it twice. -/
theorem C10_per_line_pattern_at_most_one_witness :
    ((detect_errors "acheive and acheive".data).spelling_errors.filter
      fun r => r.line == 1 && r.text == "acheive").length ≤ 1 ∧
    ((detect_errors "dependng and dependng".data).grammar_errors.filter
      fun r => r.line == 1 && r.text == "dependng").length ≤ 1 :=
  ⟨(C10_per_line_pattern_at_most_one "acheive and acheive".data 1
      ⟨wordPat "acheive", "acheive", "achieve"⟩).1 (by decide),
   (C10_per_line_pattern_at_most_one "dependng and dependng".data 1
      ⟨wordPat "dependng", "dependng", "depending"⟩).2.1 (by decide)⟩

end Clarity
